import Mathlib

/-
Shallow embedding of packages/editor/CodeMirror/CodeMirror5Emulation/Decorator.ts.

Positions are offsets into the document, modelled as Nat.  A document is the
list of its lines; line i (zero-based) starts at the sum over earlier lines of
(length + 1), the +1 accounting for the newline separator.

Host-framework primitives that the source file calls into (document line
lookup, the Decoration values of the view library, range sets, and the
line-scanning StringStream) are modelled from their documented behaviour;
the rest is a direct transcription of the source.  TypeScript field names
"from" and "to" are keywords in Lean and are rendered as "lfrom"/"lto" on
lines, "rfrom"/"rto" on ranges in a decoration set, and "from_"/"to_" on
effect payloads.
-/

/-- Line information as returned by the host document by doc.line (one-based
number) and doc.lineAt (offset): start offset, end offset (the newline is not
included), one-based line number, and the line text. -/
structure LineInfo where
  lfrom : Nat
  lto : Nat
  number : Nat
  text : String
deriving DecidableEq, Repr

/-- Helper for docLine: walk the line list, skipping the given count of lines
while accumulating the offset.  Out-of-range lookups return a degenerate empty
line past the end (the host would throw; no modelled claim exercises this). -/
def docLineAux : List String → Nat → Nat → Nat → LineInfo
  | [], _, number, offset => ⟨offset, offset, number, ""⟩
  | l :: _, 0, number, offset => ⟨offset, offset + l.length, number, l⟩
  | l :: rest, skip + 1, number, offset => docLineAux rest skip number (offset + l.length + 1)

/-- doc.line: look a line up by its one-based number. -/
def docLine (doc : List String) (number : Nat) : LineInfo :=
  docLineAux doc (number - 1) number 0

/-- Helper for docLineAt: find the line containing an offset.  A position past
the end of the document resolves to the last line. -/
def docLineAtAux : List String → Nat → Nat → Nat → LineInfo
  | [], _, number, offset => ⟨offset, offset, number, ""⟩
  | l :: rest, pos, number, offset =>
    if pos ≤ offset + l.length then ⟨offset, offset + l.length, number, l⟩
    else
      match rest with
      | [] => ⟨offset, offset + l.length, number, l⟩
      | _ :: _ => docLineAtAux rest pos (number + 1) (offset + l.length + 1)

/-- doc.lineAt: look a line up by an offset it contains. -/
def docLineAt (doc : List String) (pos : Nat) : LineInfo :=
  docLineAtAux doc pos 1 0

/-- LineWidgetOptions from the source: an optional extra class for the widget
container and the side flag.  In the source "above" is an optional boolean and
every read treats a missing value as false, so it is modelled as Bool. -/
structure LineWidgetOptions where
  className : Option String := none
  above : Bool := false
deriving DecidableEq, Repr

/-- WidgetDecorationWrapper from the source: a widget payload wrapping the
renderable element (modelled as an opaque Nat handle) and the options.  Its
toDOM rendering is outside the model. -/
structure WidgetDecorationWrapper where
  element : Nat
  options : LineWidgetOptions
deriving DecidableEq, Repr

/-- Which Decoration constructor of the view library produced a value. -/
inductive DecKind where
  | line
  | mark
  | widget
deriving DecidableEq, Repr

/-- The spec record handed to a Decoration constructor, restricted to the keys
this source file ever writes or reads.  "attributes" models the
spec.attributes object through the single key {class: ...} the source stores
in it; "specClass" models the distinct top-level spec.class key, which the
source reads in getLineClasses but never writes anywhere. -/
structure DecorationSpecM where
  attributes : Option String := none
  specClass : Option String := none
  id : Option Nat := none
  widget : Option WidgetDecorationWrapper := none
  side : Int := 0
  block : Bool := false
deriving DecidableEq, Repr

/-- A Decoration value of the view library: the constructor used plus its spec. -/
structure DecorationM where
  kind : DecKind
  spec : DecorationSpecM
deriving DecidableEq, Repr

/-- Decoration.line({attributes: {class: className}, id}). -/
def mkLineDecoration (className : String) (id : Option Nat) : DecorationM :=
  ⟨DecKind.line, { attributes := some className, id := id }⟩

/-- Decoration.mark({attributes: {class: className}, id}). -/
def mkMarkDecoration (className : String) (id : Option Nat) : DecorationM :=
  ⟨DecKind.mark, { attributes := some className, id := id }⟩

/-- The decoration built in the else-branch of classNameToCssDecoration. -/
def mkCssDecoration (className : String) (isLineDecoration : Bool) (id : Option Nat) : DecorationM :=
  if isLineDecoration then mkLineDecoration className id else mkMarkDecoration className id

/-- Decoration.widget({widget: new WidgetDecorationWrapper(element, options),
side: options.above ? -1 : 1, block: true}). -/
def mkWidgetDecoration (element : Nat) (options : LineWidgetOptions) : DecorationM :=
  ⟨DecKind.widget,
    { widget := some ⟨element, options⟩,
      side := if options.above then -1 else 1,
      block := true }⟩

/-- Decoration.eq of the view library, modelled from its documented behaviour:
two line (or two mark) decorations are equal when their rendering-relevant
spec keys (spec.class and the attributes object) agree; the numeric id is an
extra spec key that eq ignores.  Decorations of different kinds are never
equal, and two widget decorations compare by widget instance identity, which
is never true between the distinct wrapper instances this file creates. -/
def decorationEq (a b : DecorationM) : Bool :=
  match a.kind, b.kind with
  | DecKind.line, DecKind.line =>
      a.spec.specClass == b.spec.specClass && a.spec.attributes == b.spec.attributes
  | DecKind.mark, DecKind.mark =>
      a.spec.specClass == b.spec.specClass && a.spec.attributes == b.spec.attributes
  | _, _ => false

/-- spec.widget?.element: the element wrapped by a widget decoration, if any. -/
def specWidgetElement (d : DecorationM) : Option Nat :=
  match d.spec.widget with
  | some w => some w.element
  | none => none

/-- Record lookup (className in cache / cache[className]) on the
_decorationCache field, a plain string-keyed record of decorations. -/
def cacheFind : List (String × DecorationM) → String → Option DecorationM
  | [], _ => none
  | (k, v) :: rest, key => if k == key then some v else cacheFind rest key

/-- Record assignment cache[className] = decoration (overwrites any binding). -/
def cacheSet : List (String × DecorationM) → String → DecorationM → List (String × DecorationM)
  | [], key, v => [(key, v)]
  | (k, v') :: rest, key, v =>
      if k == key then (key, v) :: rest else (k, v') :: cacheSet rest key v

/-- classNameToCssDecoration from the source: the cached decoration is
returned only when the class is present in the cache and no id was requested;
otherwise a decoration is built (line or mark according to the flag, carrying
the requested id) and stored in the cache, overwriting any previous binding
for that class. -/
def classNameToCssDecoration (cache : List (String × DecorationM)) (className : String)
    (isLineDecoration : Bool) (id : Option Nat) : DecorationM × List (String × DecorationM) :=
  match id, cacheFind cache className with
  | none, some decoration => (decoration, cache)
  | _, _ =>
      let decoration := mkCssDecoration className isLineDecoration id
      (decoration, cacheSet cache className decoration)

/-- CssDecorationSpec from the source: the payload of the four css-class
decoration effects. -/
structure CssDecorationSpec where
  from_ : Nat
  to_ : Nat
  cssClass : String
  id : Option Nat := none
deriving DecidableEq, Repr

/-- LineWidgetDecorationSpec from the source: the payload of the add-widget
effect. -/
structure LineWidgetDecorationSpec where
  from_ : Nat
  to_ : Nat
  element : Nat
  options : LineWidgetOptions
deriving DecidableEq, Repr

/-- The effect kinds defined at the top of the source file.  The
remove-line-widget effect carries only the element; the refresh effect
carries nothing. -/
inductive Effect where
  | addLineDecoration (value : CssDecorationSpec)
  | removeLineDecoration (value : CssDecorationSpec)
  | addMarkDecoration (value : CssDecorationSpec)
  | removeMarkDecoration (value : CssDecorationSpec)
  | addLineWidget (value : LineWidgetDecorationSpec)
  | removeLineWidget (element : Nat)
  | refreshOverlays
deriving DecidableEq, Repr

/-- mapRangeConfig from the source: both endpoints are independently mapped
through the change description and then reordered so that from_ ≤ to_. -/
def mapCssRange (change : Nat → Nat) (r : CssDecorationSpec) : CssDecorationSpec :=
  let f := change r.from_
  let t := change r.to_
  { r with from_ := min f t, to_ := max f t }

/-- mapRangeConfig applied to the add-widget payload. -/
def mapWidgetRange (change : Nat → Nat) (r : LineWidgetDecorationSpec) : LineWidgetDecorationSpec :=
  let f := change r.from_
  let t := change r.to_
  { r with from_ := min f t, to_ := max f t }

/-- Whether the StateEffect.define call for the effect kind passes
mapRangeConfig.  In the source the four css-decoration effects and the
add-line-widget effect do; removeLineWidgetEffect and refreshOverlaysEffect
are defined without a map configuration. -/
def effectHasMapConfig : Effect → Bool
  | Effect.addLineDecoration _ => true
  | Effect.removeLineDecoration _ => true
  | Effect.addMarkDecoration _ => true
  | Effect.removeMarkDecoration _ => true
  | Effect.addLineWidget _ => true
  | Effect.removeLineWidget _ => false
  | Effect.refreshOverlays => false

/-- The range carried by an effect payload, when it has one. -/
def effectRange : Effect → Option (Nat × Nat)
  | Effect.addLineDecoration v => some (v.from_, v.to_)
  | Effect.removeLineDecoration v => some (v.from_, v.to_)
  | Effect.addMarkDecoration v => some (v.from_, v.to_)
  | Effect.removeMarkDecoration v => some (v.from_, v.to_)
  | Effect.addLineWidget v => some (v.from_, v.to_)
  | Effect.removeLineWidget _ => none
  | Effect.refreshOverlays => none

/-- How a transaction remaps an effect: effects defined with mapRangeConfig
have their payload range remapped; the other two effect kinds carry no range
and pass through unchanged. -/
def mapEffect (change : Nat → Nat) : Effect → Effect
  | Effect.addLineDecoration v => Effect.addLineDecoration (mapCssRange change v)
  | Effect.removeLineDecoration v => Effect.removeLineDecoration (mapCssRange change v)
  | Effect.addMarkDecoration v => Effect.addMarkDecoration (mapCssRange change v)
  | Effect.removeMarkDecoration v => Effect.removeMarkDecoration (mapCssRange change v)
  | Effect.addLineWidget v => Effect.addLineWidget (mapWidgetRange change v)
  | Effect.removeLineWidget element => Effect.removeLineWidget element
  | Effect.refreshOverlays => Effect.refreshOverlays

/-- effect.is(refreshOverlaysEffect). -/
def isRefreshEffect : Effect → Bool
  | Effect.refreshOverlays => true
  | _ => false

/-- One positioned decoration inside a decoration set. -/
structure RDecoration where
  rfrom : Nat
  rto : Nat
  value : DecorationM
deriving DecidableEq, Repr

/-- Strict (from, to) order on positioned decorations; this is the comparator
the source passes to sort (from position first, then length) and also the
order in which the range set keeps its contents. -/
def decLt (a b : RDecoration) : Bool :=
  a.rfrom < b.rfrom || (a.rfrom == b.rfrom && a.rto < b.rto)

/-- RangeSet update {add: [..]} of the view library: insert keeping the set
sorted by (from, to); an insertion at an already-present key lands after the
existing entries. -/
def rangeSetInsert (x : RDecoration) : List RDecoration → List RDecoration
  | [] => [x]
  | y :: ys => if decLt x y then x :: y :: ys else y :: rangeSetInsert x ys

/-- The add branch of updateEffectDecorations, shared by the add-line and
add-mark effects: resolve the decoration through the cache and insert it;
line decorations are given a size-zero range. -/
def applyAddCss (decorations : List RDecoration) (cache : List (String × DecorationM))
    (isLineDecoration : Bool) (value : CssDecorationSpec) :
    List RDecoration × List (String × DecorationM) :=
  let r := classNameToCssDecoration cache value.cssClass isLineDecoration value.id
  let from_ := value.from_
  let to_ := if isLineDecoration then from_ else value.to_
  (rangeSetInsert ⟨from_, to_, r.1⟩ decorations, r.2)

/-- The remove branch of updateEffectDecorations for the remove-line and
remove-mark effects.  The filter callback of the range set keeps exactly the
decorations it returns true for.  With an id the source keeps the decorations
whose spec.id differs from the target id.  Without an id the source returns
isInRange && value.eq(target) from that same keep-filter, so the branch keeps
the decorations matching the target by range and value and drops every other
decoration in the set.  The target decoration is resolved through the cache
(classNameToCssDecoration with no id), which also stores a fresh target in
the cache when the class was not cached yet. -/
def applyRemoveCss (doc : List String) (decorations : List RDecoration)
    (cache : List (String × DecorationM)) (isLineDecoration : Bool) (value : CssDecorationSpec) :
    List RDecoration × List (String × DecorationM) :=
  let targetFrom := (docLineAt doc value.from_).lfrom
  let targetTo := (docLineAt doc value.to_).lto
  let r := classNameToCssDecoration cache value.cssClass isLineDecoration none
  let keep : RDecoration → Bool := fun d =>
    match value.id with
    | some _ => !(d.value.spec.id == value.id)
    | none =>
        let isInRange := targetFrom ≤ d.rfrom && d.rto ≤ targetTo
        isInRange && decorationEq d.value r.1
  (decorations.filter keep, r.2)

/-- The effect dispatch chain inside updateEffectDecorations, one effect at a
time over the pair (decoration set, decoration cache).  The remove-widget
branch keeps every decoration whose spec.widget wraps a different element than
the one carried by the effect (and every decoration that is not a widget at
all); the refresh effect matches no branch and changes nothing. -/
def applyEffect (doc : List String) (st : List RDecoration × List (String × DecorationM))
    (effect : Effect) : List RDecoration × List (String × DecorationM) :=
  match effect with
  | Effect.addMarkDecoration value => applyAddCss st.1 st.2 false value
  | Effect.addLineDecoration value => applyAddCss st.1 st.2 true value
  | Effect.removeLineDecoration value => applyRemoveCss doc st.1 st.2 true value
  | Effect.removeMarkDecoration value => applyRemoveCss doc st.1 st.2 false value
  | Effect.addLineWidget value =>
      let decoration := mkWidgetDecoration value.element value.options
      let pos := if value.options.above then value.from_ else value.to_
      (rangeSetInsert ⟨pos, pos, decoration⟩ st.1, st.2)
  | Effect.removeLineWidget element =>
      (st.1.filter (fun d => !(specWidgetElement d.value == some element)), st.2)
  | Effect.refreshOverlays => st

/-- A transaction as consumed by updateEffectDecorations: the document of the
post-transaction state and the effects attached to the transaction.  All the
dispatches issued by this source file attach effects to an otherwise empty
transaction, so the position-remap step decorations.map(transaction.changes)
is the identity for the transactions in this model. -/
structure TransactionM where
  doc : List String
  effects : List Effect

/-- The effect fold of updateEffectDecorations over one transaction. -/
def applyTransaction (st : List RDecoration × List (String × DecorationM))
    (t : TransactionM) : List RDecoration × List (String × DecorationM) :=
  t.effects.foldl (applyEffect t.doc) st

/-- updateEffectDecorations over a list of transactions. -/
def updateEffectDecorations (st : List RDecoration × List (String × DecorationM))
    (ts : List TransactionM) : List RDecoration × List (String × DecorationM) :=
  ts.foldl applyTransaction st

/-- The mutable fields of a Decorator instance that the modelled operations
touch: the canonical effect-decoration set, the decoration cache, and the
counter used to allocate mark identities. -/
structure DecoratorState where
  effectDecorations : List RDecoration
  decorationCache : List (String × DecorationM)
  nextLineWidgetId : Nat
deriving Repr

/-- A freshly constructed Decorator: empty set, empty cache, counter at zero. -/
def decoratorInit : DecoratorState := ⟨[], [], 0⟩

/-- editor.dispatch({effects}): the state field applies
updateEffectDecorations to the single resulting transaction. -/
def dispatch (doc : List String) (s : DecoratorState) (effects : List Effect) : DecoratorState :=
  let r := updateEffectDecorations (s.effectDecorations, s.decorationCache) [⟨doc, effects⟩]
  { s with effectDecorations := r.1, decorationCache := r.2 }

/-- addRemoveLineClass from the source: resolve the zero-based line number to
a one-based line and dispatch an add or remove line-decoration effect over
the full line range. -/
def addRemoveLineClass (doc : List String) (s : DecoratorState) (lineNumber : Nat)
    (className : String) (add : Bool) : DecoratorState :=
  let line := docLine doc (lineNumber + 1)
  let effect :=
    if add then Effect.addLineDecoration ⟨line.lfrom, line.lto, className, none⟩
    else Effect.removeLineDecoration ⟨line.lfrom, line.lto, className, none⟩
  dispatch doc s [effect]

/-- addLineClass(lineNumber, where, className); where is ignored. -/
def addLineClass (doc : List String) (s : DecoratorState) (lineNumber : Nat)
    (_where : String) (className : String) : DecoratorState :=
  addRemoveLineClass doc s lineNumber className true

/-- removeLineClass(lineNumber, where, className); where is ignored. -/
def removeLineClass (doc : List String) (s : DecoratorState) (lineNumber : Nat)
    (_where : String) (className : String) : DecoratorState :=
  addRemoveLineClass doc s lineNumber className false

/-- getLineClasses from the source: iterate the canonical set between the
line bounds (the range-set between visits every decoration whose range
touches the window) and collect decoration.spec.class for the decorations
whose range equals the full line range exactly.  The typeof string test is
the isSome test on the optional spec.class key. -/
def getLineClasses (doc : List String) (s : DecoratorState) (lineNumber : Nat) : List String :=
  let line := docLine doc (lineNumber + 1)
  (s.effectDecorations.filter (fun d => d.rfrom ≤ line.lto && line.lfrom ≤ d.rto)).filterMap
    (fun d =>
      if d.rfrom == line.lfrom && d.rto == line.lto then d.value.spec.specClass else none)

/-- MarkTextOptions from the source. -/
structure MarkTextOptions where
  className : String
deriving DecidableEq, Repr

/-- markText from the source: allocate the next widget id, dispatch an
add-mark effect carrying it, and return (new state, the effect payload).  The
payload is what the returned handle closes over: clear() dispatches a
remove-mark effect with this very payload. -/
def markText (doc : List String) (s : DecoratorState) (from_ to_ : Nat)
    (options : MarkTextOptions) : DecoratorState × CssDecorationSpec :=
  let effectOptions : CssDecorationSpec :=
    ⟨from_, to_, options.className, some s.nextLineWidgetId⟩
  let s1 := { s with nextLineWidgetId := s.nextLineWidgetId + 1 }
  (dispatch doc s1 [Effect.addMarkDecoration effectOptions], effectOptions)

/-- clear() on a markText handle: dispatch the paired remove-mark effect. -/
def markTextClear (doc : List String) (s : DecoratorState)
    (effectOptions : CssDecorationSpec) : DecoratorState :=
  dispatch doc s [Effect.removeMarkDecoration effectOptions]

/-- addLineWidget from the source: dispatch an add-line-widget effect over the
line range; the node is the opaque element handle. -/
def addLineWidget (doc : List String) (s : DecoratorState) (lineNumber : Nat)
    (node : Nat) (options : LineWidgetOptions) : DecoratorState :=
  let line := docLine doc (lineNumber + 1)
  dispatch doc s [Effect.addLineWidget ⟨line.lfrom, line.lto, node, options⟩]

/-- clear() on a line-widget handle: dispatch the remove-line-widget effect
carrying the element. -/
def lineWidgetClear (doc : List String) (s : DecoratorState) (node : Nat) : DecoratorState :=
  dispatch doc s [Effect.removeLineWidget node]

/-- getLineWidgets from the source: visit the canonical set between the line
bounds and collect (element, options) of the size-zero widget decorations
anchored inside the line. -/
def getLineWidgets (doc : List String) (s : DecoratorState) (lineNumber : Nat) :
    List (Nat × LineWidgetOptions) :=
  let line := docLine doc (lineNumber + 1)
  (s.effectDecorations.filter (fun d => d.rfrom ≤ line.lto && line.lfrom ≤ d.rto)).filterMap
    (fun d =>
      if line.lfrom ≤ d.rfrom && d.rfrom ≤ line.lto && d.rfrom == d.rto then
        match d.value.spec.widget with
        | some w => some (w.element, w.options)
        | none => none
      else none)

/-- The scanning cursor handed to an overlay's token function: the current
line's text, the current position within it, and the tab/indent configuration
the source passes to the StringStream constructor. -/
structure StreamState where
  text : String
  pos : Nat
  tabSize : Nat
  indentSize : Nat
deriving DecidableEq, Repr

/-- stream.eol(): the position has reached the end of the line text. -/
def streamEol (r : StreamState) : Bool :=
  r.text.length ≤ r.pos

/-- An overlay (StreamParser): an optional per-recompute initializer taking
the indent unit width, and a token function that transforms the cursor and
its scan state and yields zero-or-more space-separated class names (or
nothing).  The source mutates the cursor and the state in place; the model
returns the updated pair. -/
structure ModelOverlay (σ : Type) where
  startState : Option (Nat → σ)
  token : StreamState → σ → StreamState × σ × Option String

/-- Helper for splitWS: walk the characters, closing a piece at every maximal
whitespace run. -/
def splitWSAux : List Char → List Char → Bool → List (List Char)
  | [], cur, _ => [cur.reverse]
  | c :: rest, cur, inRun =>
    if c.isWhitespace then
      if inRun then splitWSAux rest [] true
      else cur.reverse :: splitWSAux rest [] true
    else splitWSAux rest (c :: cur) false

/-- token.split on runs of whitespace, as the regular-expression split in the
source does: pieces are separated by maximal whitespace runs, and leading or
trailing whitespace contributes an empty piece at the corresponding end. -/
def splitWS (s : String) : List String :=
  (splitWSAux s.data [] false).map List.asString

/-- className.startsWith applied to the reserved line-level marker. -/
def startsWithLineMarker (s : String) : Bool :=
  s.data.take 5 == ['l', 'i', 'n', 'e', '-']

/-- makeDecoration from createOverlayDecorations: classify the token name by
the reserved line- marker, add the cm- class-name preamble, resolve the
decoration through the cache (with no id) and position it. -/
def makeDecoration (cache : List (String × DecorationM)) (tokenName : String)
    (start stop : Nat) : RDecoration × List (String × DecorationM) :=
  let isLineDecoration := startsWithLineMarker tokenName
  let prefixed := "cm-" ++ tokenName
  let r := classNameToCssDecoration cache prefixed isLineDecoration none
  (⟨start, stop, r.1⟩, r.2)

/-- The error thrown when a token call fails to advance the cursor. -/
def overlayAdvanceError : String :=
  "Mark decoration position did not increase -- overlays must advance with each call to .token()"

/-- One class name from a token: line-level names anchor a size-zero
decoration at the line start; span names cover the document range the token
was scanned over. -/
def emitClassName (lineFrom lastPos newPos : Nat)
    (acc : List RDecoration × List (String × DecorationM)) (className : String) :
    List RDecoration × List (String × DecorationM) :=
  if startsWithLineMarker className then
    let r := makeDecoration acc.2 className lineFrom lineFrom
    (acc.1 ++ [r.1], r.2)
  else
    let r := makeDecoration acc.2 className (lastPos + lineFrom) (newPos + lineFrom)
    (acc.1 ++ [r.1], r.2)

/-- The while-loop over one line in createOverlayDecorations.  The source
loops until eol with no bound; the fuel argument makes the recursion
structural, and one unit per token call suffices for any overlay that
advances the cursor, since the callers pass text.length + 1.  Decorations of
a token are accumulated before the advance check, but an error discards the
whole recompute, so nothing partial survives.  The check compares the cursor
position after the token call against lastPos, the position before it. -/
def scanLine {σ : Type} (overlay : ModelOverlay σ) (reader : StreamState) (state : σ)
    (lastPos : Nat) (lineFrom : Nat) (acc : List RDecoration × List (String × DecorationM))
    (fuel : Nat) : Except String (List RDecoration × σ × List (String × DecorationM)) :=
  match fuel with
  | 0 => Except.error overlayAdvanceError
  | fuel + 1 =>
    if streamEol reader then Except.ok (acc.1, state, acc.2)
    else
      let step := overlay.token reader state
      let reader1 := step.1
      let state1 := step.2.1
      let acc1 :=
        match step.2.2 with
        | none => acc
        | some token => (splitWS token).foldl (emitClassName lineFrom lastPos reader1.pos) acc
      if reader1.pos = lastPos then Except.error overlayAdvanceError
      else scanLine overlay reader1 state1 reader1.pos lineFrom acc1 fuel

/-- The for-loop over the whole lines covering one visible range: line
numbers i, i+1, ... for count lines, each scanned from a fresh cursor at
position zero with the overlay state threaded through. -/
def scanRangeLines {σ : Type} (overlay : ModelOverlay σ) (doc : List String)
    (tabSize indentSize : Nat) (i count : Nat) (state : σ)
    (acc : List RDecoration × List (String × DecorationM)) :
    Except String (List RDecoration × σ × List (String × DecorationM)) :=
  match count with
  | 0 => Except.ok (acc.1, state, acc.2)
  | count + 1 =>
    let line := docLine doc i
    match scanLine overlay ⟨line.text, 0, tabSize, indentSize⟩ state 0 line.lfrom acc
        (line.text.length + 1) with
    | Except.error e => Except.error e
    | Except.ok r => scanRangeLines overlay doc tabSize indentSize (i + 1) count r.2.1 (r.1, r.2.2)

/-- The loop over the visible ranges for one overlay: each range resolves to
the covering whole lines by number, from the line at its start to the line at
its end. -/
def scanRanges {σ : Type} (overlay : ModelOverlay σ) (doc : List String)
    (tabSize indentSize : Nat) (ranges : List (Nat × Nat)) (state : σ)
    (acc : List RDecoration × List (String × DecorationM)) :
    Except String (List RDecoration × σ × List (String × DecorationM)) :=
  match ranges with
  | [] => Except.ok (acc.1, state, acc.2)
  | (f, t) :: rest =>
    let fromLine := docLineAt doc f
    let toLine := docLineAt doc t
    match scanRangeLines overlay doc tabSize indentSize fromLine.number
        (toLine.number + 1 - fromLine.number) state acc with
    | Except.error e => Except.error e
    | Except.ok r => scanRanges overlay doc tabSize indentSize rest r.2.1 (r.1, r.2.2)

/-- The loop over the registered overlays: each overlay initializes its scan
state once per recompute (startState with the indent width when defined, an
empty object otherwise, modelled by the Inhabited default). -/
def scanOverlays {σ : Type} [Inhabited σ] (overlays : List (ModelOverlay σ))
    (doc : List String) (tabSize indentSize : Nat) (ranges : List (Nat × Nat))
    (acc : List RDecoration × List (String × DecorationM)) :
    Except String (List RDecoration × List (String × DecorationM)) :=
  match overlays with
  | [] => Except.ok acc
  | overlay :: rest =>
    let state := match overlay.startState with
      | some f => f indentSize
      | none => default
    match scanRanges overlay doc tabSize indentSize ranges state acc with
    | Except.error e => Except.error e
    | Except.ok r => scanOverlays rest doc tabSize indentSize ranges (r.1, r.2.2)

/-- Stable insertion into a (from, to)-sorted list: the new element goes in
front of the first strictly greater element, hence after every earlier equal
element, as the stable sort of the source does. -/
def insertDec (x : RDecoration) : List RDecoration → List RDecoration
  | [] => [x]
  | y :: ys => if decLt y x then y :: insertDec x ys else x :: y :: ys

/-- The stable sort by (from, to) ascending applied to the accumulated
decorations before the bulk construction of the overlay set. -/
def sortDecorations : List RDecoration → List RDecoration
  | [] => []
  | x :: xs => insertDec x (sortDecorations xs)

/-- Sortedness by (from, to) ascending: no adjacent pair is strictly
descending. -/
def isSortedDecs : List RDecoration → Bool
  | a :: b :: t => !decLt b a && isSortedDecs (b :: t)
  | _ => true

/-- createOverlayDecorations from the source: scan every overlay over every
visible line, sort the accumulated decorations by (from, to) ascending, and
bulk-build the overlay set by inserting in that order (the range-set builder
of the view library returns exactly the ranges it is fed in order).  A token
call that fails to advance the cursor aborts the whole recompute with an
error, which propagates to the caller. -/
def createOverlayDecorations {σ : Type} [Inhabited σ] (overlays : List (ModelOverlay σ))
    (doc : List String) (ranges : List (Nat × Nat)) (tabSize indentSize : Nat)
    (cache : List (String × DecorationM)) :
    Except String (List RDecoration × List (String × DecorationM)) :=
  match scanOverlays overlays doc tabSize indentSize ranges ([], cache) with
  | Except.error e => Except.error e
  | Except.ok r => Except.ok (sortDecorations r.1, r.2)

/-- The inputs of the overlay ViewPlugin update method that determine how
often it recomputes: the changed flags and, per transaction, the effect
list. -/
structure ViewUpdateM where
  docChanged : Bool
  viewportChanged : Bool
  transactions : List (List Effect)
deriving Repr

/-- The guard inside doUpdate: the method declares const updated = false and
never reassigns it, so the early return of doUpdate never fires and every
call to doUpdate recomputes the overlay decorations. -/
def doUpdateRecomputes (updated : Bool) : Bool :=
  !updated

/-- How many times the update method of the overlay ViewPlugin recomputes the
overlay decoration set for one view update: once when the viewport or the
document changed; otherwise once per transaction that carries at least one
refresh-overlays effect (the inner loop breaks after the first refresh effect
of a transaction, but the outer loop continues with the next transaction and
the dead updated flag never stops a later doUpdate call). -/
def overlayRecomputeCount (u : ViewUpdateM) : Nat :=
  if u.viewportChanged || u.docChanged then
    if doUpdateRecomputes false then 1 else 0
  else
    u.transactions.foldl
      (fun count effects =>
        if effects.any isRefreshEffect then
          count + (if doUpdateRecomputes false then 1 else 0)
        else count)
      0

/-- Invariant of a (decoration set, decoration cache) pair: the spec.class
key is unset on every decoration.  The source never writes spec.class, so
every reachable Decorator state satisfies this. -/
def pairSpecClassUnset (st : List RDecoration × List (String × DecorationM)) : Bool :=
  st.1.all (fun d => d.value.spec.specClass == none)
    && st.2.all (fun kv => kv.2.spec.specClass == none)

/-- The invariant on a Decorator state. -/
def stateSpecClassUnset (s : DecoratorState) : Bool :=
  pairSpecClassUnset (s.effectDecorations, s.decorationCache)

/-- The overlay of the three-line scenario: its token function advances the
cursor one character per call and reports the line-error token exactly on a
line's first character. -/
def overlayC7 : ModelOverlay Unit :=
  ⟨none, fun r _ =>
    ({ r with pos := r.pos + 1 }, (), if r.pos == 0 then some "line-error" else none)⟩

/-- A protocol-violating overlay: its token function never moves the cursor. -/
def stuckOverlay : ModelOverlay Unit :=
  ⟨none, fun r s => (r, s, none)⟩

/-- The strict (from, to) order is asymmetric. -/
theorem decLt_asymm (a b : RDecoration) (h : decLt a b = true) : decLt b a = false := by
  cases hba : decLt b a
  · rfl
  · exfalso
    simp only [decLt, Bool.or_eq_true, Bool.and_eq_true, beq_iff_eq, decide_eq_true_eq] at h hba
    omega

/-- Stable insertion preserves sortedness by (from, to). -/
theorem isSortedDecs_insertDec (x : RDecoration) :
    ∀ (l : List RDecoration), isSortedDecs l = true → isSortedDecs (insertDec x l) = true := by
  intro l
  induction l with
  | nil => intro _; simp [insertDec, isSortedDecs]
  | cons y ys ih =>
    intro h
    cases hyx : decLt y x with
    | false =>
      simp only [insertDec, hyx, Bool.false_eq_true, if_false]
      simp [isSortedDecs, hyx, h]
    | true =>
      cases ys with
      | nil => simp [insertDec, hyx, isSortedDecs, decLt_asymm y x hyx]
      | cons z zs =>
        have h1 : decLt z y = false := by
          cases hzy : decLt z y
          · rfl
          · simp [isSortedDecs, hzy] at h
        have h2 : isSortedDecs (z :: zs) = true := by
          simpa [isSortedDecs, h1] using h
        have h3 := ih h2
        have hout : insertDec x (y :: z :: zs) = y :: insertDec x (z :: zs) := by
          simp [insertDec, hyx]
        rw [hout]
        cases hzx : decLt z x with
        | true =>
          have h4 : insertDec x (z :: zs) = z :: insertDec x zs := by
            simp [insertDec, hzx]
          rw [h4]
          simp only [isSortedDecs, h1, Bool.not_false, Bool.true_and]
          rw [← h4]
          exact h3
        | false =>
          have h4 : insertDec x (z :: zs) = x :: z :: zs := by
            simp [insertDec, hzx]
          rw [h4]
          simp [isSortedDecs, decLt_asymm y x hyx, hzx, h2]

/-- The sort applied before the bulk construction of the overlay set always
yields a list sorted by (from, to) ascending. -/
theorem isSortedDecs_sortDecorations (l : List RDecoration) :
    isSortedDecs (sortDecorations l) = true := by
  induction l with
  | nil => rfl
  | cons x xs ih =>
    simp only [sortDecorations]
    exact isSortedDecs_insertDec x (sortDecorations xs) ih

/-- Looking up the key just assigned in the cache returns the new value. -/
theorem cacheFind_cacheSet (cache : List (String × DecorationM)) (k : String) (v : DecorationM) :
    cacheFind (cacheSet cache k v) k = some v := by
  induction cache with
  | nil => simp [cacheSet, cacheFind]
  | cons kv rest ih =>
    obtain ⟨k', v'⟩ := kv
    cases h : (k' == k) with
    | true => simp [cacheSet, cacheFind, h]
    | false => simp [cacheSet, cacheFind, h, ih]

/-- Equation for classNameToCssDecoration with an id: the cache is not read,
a fresh decoration carrying the id is produced and stored. -/
theorem cn_some_eq (cache : List (String × DecorationM)) (c : String) (l : Bool) (n : Nat) :
    classNameToCssDecoration cache c l (some n)
      = (mkCssDecoration c l (some n), cacheSet cache c (mkCssDecoration c l (some n))) := rfl

/-- Equation for classNameToCssDecoration without an id on a cache hit. -/
theorem cn_none_some_eq (cache : List (String × DecorationM)) (c : String) (l : Bool)
    (d : DecorationM) (h : cacheFind cache c = some d) :
    classNameToCssDecoration cache c l none = (d, cache) := by
  unfold classNameToCssDecoration
  rw [h]

/-- Equation for classNameToCssDecoration without an id on a cache miss. -/
theorem cn_none_none_eq (cache : List (String × DecorationM)) (c : String) (l : Bool)
    (h : cacheFind cache c = none) :
    classNameToCssDecoration cache c l none
      = (mkCssDecoration c l none, cacheSet cache c (mkCssDecoration c l none)) := by
  unfold classNameToCssDecoration
  rw [h]

/-- The identity-less lookup is a fixpoint after one identity-less call:
calling again with the resulting cache returns the same decoration and the
same cache. -/
theorem classNameToCssDecoration_none_stable (cache : List (String × DecorationM))
    (c : String) (l : Bool) :
    classNameToCssDecoration (classNameToCssDecoration cache c l none).2 c l none
      = classNameToCssDecoration cache c l none := by
  cases h : cacheFind cache c with
  | some d =>
    rw [cn_none_some_eq cache c l d h]
    exact cn_none_some_eq cache c l d h
  | none =>
    rw [cn_none_none_eq cache c l h]
    exact cn_none_some_eq _ c l _ (cacheFind_cacheSet cache c _)

/-- A filter of a filter by the same predicate changes nothing. -/
theorem filter_idem {α : Type} (p : α → Bool) (l : List α) :
    (l.filter p).filter p = l.filter p := by
  rw [List.filter_filter]
  simp

/-- Every element surviving a filter satisfies the filter predicate. -/
theorem all_filter_self {α : Type} (p : α → Bool) (l : List α) :
    (l.filter p).all p = true := by
  apply List.all_eq_true.mpr
  intro x hx
  exact (List.mem_filter.mp hx).2

/-- Filtering preserves an all-elements property. -/
theorem all_filter_of_all {α : Type} (p q : α → Bool) (l : List α) (h : l.all p = true) :
    (l.filter q).all p = true := by
  apply List.all_eq_true.mpr
  intro x hx
  exact List.all_eq_true.mp h x (List.mem_of_mem_filter hx)

/-- Sorted insertion preserves an all-elements property. -/
theorem all_rangeSetInsert (p : RDecoration → Bool) (x : RDecoration) (l : List RDecoration)
    (hx : p x = true) (hl : l.all p = true) : (rangeSetInsert x l).all p = true := by
  induction l with
  | nil => simp [rangeSetInsert, hx]
  | cons y ys ih =>
    simp only [List.all_cons, Bool.and_eq_true] at hl
    cases h : decLt x y with
    | true => simp [rangeSetInsert, h, hx, hl.1, hl.2]
    | false => simp [rangeSetInsert, h, hl.1, ih hl.2]

/-- Cache assignment preserves an all-entries property when the new value
satisfies it. -/
theorem all_cacheSet (q : String × DecorationM → Bool) (cache : List (String × DecorationM))
    (k : String) (v : DecorationM) (hall : cache.all q = true) (hv : q (k, v) = true) :
    (cacheSet cache k v).all q = true := by
  induction cache with
  | nil => simp [cacheSet, hv]
  | cons kv rest ih =>
    obtain ⟨k', v'⟩ := kv
    simp only [List.all_cons, Bool.and_eq_true] at hall
    cases h : (k' == k) with
    | true => simp [cacheSet, h, hv, hall.2]
    | false => simp [cacheSet, h, hall.1, ih hall.2]

/-- A value found in the cache satisfies any all-entries property of the
cache. -/
theorem cacheFind_all (q : DecorationM → Bool) (cache : List (String × DecorationM))
    (k : String) (d : DecorationM) (h : cacheFind cache k = some d)
    (hall : cache.all (fun kv => q kv.2) = true) : q d = true := by
  induction cache with
  | nil => simp [cacheFind] at h
  | cons kv rest ih =>
    obtain ⟨k', v'⟩ := kv
    simp only [List.all_cons, Bool.and_eq_true] at hall
    cases hk : (k' == k) with
    | true =>
      simp only [cacheFind, hk, if_true, Option.some.injEq] at h
      exact h ▸ hall.1
    | false =>
      simp only [cacheFind, hk, Bool.false_eq_true, if_false] at h
      exact ih h hall.2

/-- The decorations built by the cache helper never carry spec.class, and the
cache keeps that property. -/
theorem cn_specClassUnset (cache : List (String × DecorationM)) (c : String) (l : Bool)
    (id : Option Nat) (hall : cache.all (fun kv => kv.2.spec.specClass == none) = true) :
    ((classNameToCssDecoration cache c l id).1.spec.specClass = none)
    ∧ ((classNameToCssDecoration cache c l id).2.all
        (fun kv => kv.2.spec.specClass == none) = true) := by
  have hmk : ∀ (i : Option Nat), (mkCssDecoration c l i).spec.specClass = none := by
    intro i
    cases l <;> rfl
  cases id with
  | some n =>
    rw [cn_some_eq]
    refine ⟨hmk (some n), all_cacheSet _ cache c _ hall ?_⟩
    simp [hmk (some n)]
  | none =>
    cases h : cacheFind cache c with
    | some d =>
      rw [cn_none_some_eq cache c l d h]
      have := cacheFind_all (fun v => v.spec.specClass == none) cache c d h hall
      simp only [beq_iff_eq] at this
      exact ⟨this, hall⟩
    | none =>
      rw [cn_none_none_eq cache c l h]
      refine ⟨hmk none, all_cacheSet _ cache c _ hall ?_⟩
      simp [hmk none]

/-- One effect preserves the spec.class-unset invariant of the reducer pair. -/
theorem applyEffect_specClassUnset (doc : List String)
    (st : List RDecoration × List (String × DecorationM)) (e : Effect)
    (h : pairSpecClassUnset st = true) : pairSpecClassUnset (applyEffect doc st e) = true := by
  obtain ⟨ds, cache⟩ := st
  simp only [pairSpecClassUnset, Bool.and_eq_true] at h
  obtain ⟨hds, hcache⟩ := h
  cases e with
  | addMarkDecoration v =>
    have hcn := cn_specClassUnset cache v.cssClass false v.id hcache
    simp only [applyEffect, applyAddCss, pairSpecClassUnset, Bool.and_eq_true]
    exact ⟨all_rangeSetInsert _ _ _ (by simp [hcn.1]) hds, hcn.2⟩
  | addLineDecoration v =>
    have hcn := cn_specClassUnset cache v.cssClass true v.id hcache
    simp only [applyEffect, applyAddCss, pairSpecClassUnset, Bool.and_eq_true]
    exact ⟨all_rangeSetInsert _ _ _ (by simp [hcn.1]) hds, hcn.2⟩
  | removeLineDecoration v =>
    have hcn := cn_specClassUnset cache v.cssClass true none hcache
    simp only [applyEffect, applyRemoveCss, pairSpecClassUnset, Bool.and_eq_true]
    exact ⟨all_filter_of_all _ _ _ hds, hcn.2⟩
  | removeMarkDecoration v =>
    have hcn := cn_specClassUnset cache v.cssClass false none hcache
    simp only [applyEffect, applyRemoveCss, pairSpecClassUnset, Bool.and_eq_true]
    exact ⟨all_filter_of_all _ _ _ hds, hcn.2⟩
  | addLineWidget v =>
    simp only [applyEffect, pairSpecClassUnset, Bool.and_eq_true]
    refine ⟨all_rangeSetInsert _ _ _ ?_ hds, hcache⟩
    simp [mkWidgetDecoration]
  | removeLineWidget element =>
    simp only [applyEffect, pairSpecClassUnset, Bool.and_eq_true]
    exact ⟨all_filter_of_all _ _ _ hds, hcache⟩
  | refreshOverlays =>
    simp only [applyEffect, pairSpecClassUnset, Bool.and_eq_true]
    exact ⟨hds, hcache⟩

/-- A whole effect list preserves the invariant. -/
theorem applyEffects_specClassUnset (doc : List String) (effects : List Effect) :
    ∀ (st : List RDecoration × List (String × DecorationM)), pairSpecClassUnset st = true →
      pairSpecClassUnset (effects.foldl (applyEffect doc) st) = true := by
  induction effects with
  | nil => intro st h; exact h
  | cons e es ih =>
    intro st h
    exact ih _ (applyEffect_specClassUnset doc st e h)

/-- The reducer preserves the invariant across any transaction list. -/
theorem updateEffectDecorations_specClassUnset (ts : List TransactionM) :
    ∀ (st : List RDecoration × List (String × DecorationM)), pairSpecClassUnset st = true →
      pairSpecClassUnset (updateEffectDecorations st ts) = true := by
  induction ts with
  | nil => intro st h; exact h
  | cons t ts ih =>
    intro st h
    simp only [updateEffectDecorations, List.foldl] at *
    exact ih _ (applyEffects_specClassUnset t.doc t.effects st h)

/-- When no decoration of the canonical set carries spec.class, the
getLineClasses query returns nothing. -/
theorem getLineClasses_specClassUnset (doc : List String) (s : DecoratorState) (n : Nat)
    (h : s.effectDecorations.all (fun d => d.value.spec.specClass == none) = true) :
    getLineClasses doc s n = [] := by
  simp only [getLineClasses]
  apply List.filterMap_eq_nil_iff.mpr
  intro d hd
  have hm : d ∈ s.effectDecorations := List.mem_of_mem_filter hd
  have h2 : d.value.spec.specClass = none := by
    have := List.all_eq_true.mp h d hm
    simpa using this
  simp [h2]

/-- Clearing a markText handle removes every decoration carrying the handle
identity. -/
theorem markTextClear_removes_id (doc : List String) (s : DecoratorState)
    (spec : CssDecorationSpec) (n : Nat) (h : spec.id = some n) :
    ((markTextClear doc s spec).effectDecorations.all
      (fun d => !(d.value.spec.id == some n))) = true := by
  simp only [markTextClear, dispatch, updateEffectDecorations, applyTransaction, List.foldl,
    applyEffect, applyRemoveCss]
  rw [h]
  exact all_filter_self _ _

/-- A token call that comes back at the position it started from makes the
line scan fail with the advance error, whatever the fuel, as long as the
cursor is not already at end of line. -/
theorem scanLine_no_advance {σ : Type} (o : ModelOverlay σ) (reader : StreamState) (st : σ)
    (lastPos lineFrom : Nat) (acc : List RDecoration × List (String × DecorationM))
    (fuel : Nat) (hfuel : fuel ≠ 0)
    (hne : streamEol reader = false) (hstuck : (o.token reader st).1.pos = lastPos) :
    scanLine o reader st lastPos lineFrom acc fuel = Except.error overlayAdvanceError := by
  obtain ⟨k, rfl⟩ : ∃ k, fuel = k + 1 := ⟨fuel - 1, by omega⟩
  simp only [scanLine, hne, Bool.false_eq_true, if_false]
  rw [if_pos hstuck]

/-- Claim C1: in the document "abc\ndef", the claimed scenario says
addLineClass(0, '', 'hl') makes getLineClasses(0) return ['cm-hl'] and a
subsequent removeLineClass(0, '', 'hl') makes it return [].  The code instead
returns [] at both query points: the add stores a size-zero line decoration
whose class sits under spec.attributes, while getLineClasses demands the full
line range and reads the never-written spec.class key; the remove leaves the
set unchanged because the identity-less filter keeps exactly the matching
decoration.  This theorem evaluates the model at the failing input. -/
theorem c1_code_behavior :
    getLineClasses ["abc", "def"] (addLineClass ["abc", "def"] decoratorInit 0 "" "hl") 0 = []
    ∧ getLineClasses ["abc", "def"]
        (removeLineClass ["abc", "def"]
          (addLineClass ["abc", "def"] decoratorInit 0 "" "hl") 0 "" "hl") 0 = []
    ∧ (removeLineClass ["abc", "def"]
          (addLineClass ["abc", "def"] decoratorInit 0 "" "hl") 0 "" "hl").effectDecorations
        = (addLineClass ["abc", "def"] decoratorInit 0 "" "hl").effectDecorations
    ∧ (addLineClass ["abc", "def"] decoratorInit 0 "" "hl").effectDecorations
        = [⟨0, 0, mkLineDecoration "hl" none⟩] :=
  ⟨rfl, rfl, rfl, rfl⟩

/-- Claim C2: the claim says an identity-less remove effect removes exactly
the decorations fully contained in the enclosing line range whose value
equals the synthesized target, keeping every other decoration.  The code does
the opposite: the filter returns isInRange && value.eq(target) from a
keep-filter, so after adding the line classes a on line 0 and b on line 1,
removing a keeps the a decoration and deletes the unrelated b decoration.
This theorem evaluates the model at that input. -/
theorem c2_code_behavior :
    (addLineClass ["abc", "def"]
        (addLineClass ["abc", "def"] decoratorInit 0 "" "a") 1 "" "b").effectDecorations
      = [⟨0, 0, mkLineDecoration "a" none⟩, ⟨4, 4, mkLineDecoration "b" none⟩]
    ∧ (removeLineClass ["abc", "def"]
        (addLineClass ["abc", "def"]
          (addLineClass ["abc", "def"] decoratorInit 0 "" "a") 1 "" "b") 0 "" "a").effectDecorations
      = [⟨0, 0, mkLineDecoration "a" none⟩] :=
  ⟨rfl, rfl⟩

/-- Claim C3: the claim says the overlay set is recomputed at most once per
view-update cycle however many refresh effects arrive.  The update method
deduplicates only within one transaction (the inner loop breaks), while its
updated flag is a never-reassigned constant false, so an update carrying two
transactions with one refresh effect each recomputes twice.  One recompute
does happen on a document or viewport change. -/
theorem c3_code_behavior :
    overlayRecomputeCount ⟨false, false, [[Effect.refreshOverlays, Effect.refreshOverlays]]⟩ = 1
    ∧ overlayRecomputeCount ⟨false, false, [[Effect.refreshOverlays], [Effect.refreshOverlays]]⟩ = 2
    ∧ overlayRecomputeCount ⟨true, false, []⟩ = 1
    ∧ overlayRecomputeCount ⟨false, true, []⟩ = 1 := by
  decide

/-- Claim C4, counterexample: the remove-line-widget effect is one of the six
decoration mutation effect kinds, yet it is defined without the range-remap
configuration, carries no range at all, and passes through remapping
unchanged, refuting the claim that all six kinds are paired with the remap
rule. -/
theorem c4_counterexample :
    effectHasMapConfig (Effect.removeLineWidget 0) = false
    ∧ effectRange (Effect.removeLineWidget 0) = none
    ∧ mapEffect (fun pos => pos + 1) (Effect.removeLineWidget 0) = Effect.removeLineWidget 0 :=
  ⟨rfl, rfl, rfl⟩

/-- Claim C4, amended: the five range-carrying effect kinds (add and remove
line decoration, add and remove mark decoration, add line widget) share the
remap rule mapping both endpoints independently and reordering so that
from ≤ to; the remove-line-widget effect carries no range and is left
unchanged by remapping. -/
theorem c4_amended (change : Nat → Nat) (e : Effect) (f t : Nat)
    (hmap : effectHasMapConfig e = true) (hr : effectRange e = some (f, t)) :
    (effectRange (mapEffect change e)
        = some (min (change f) (change t), max (change f) (change t)))
    ∧ min (change f) (change t) ≤ max (change f) (change t)
    ∧ (∀ (change2 : Nat → Nat) (element : Nat),
        mapEffect change2 (Effect.removeLineWidget element) = Effect.removeLineWidget element) := by
  refine ⟨?_, min_le_max, fun change2 element => rfl⟩
  cases e with
  | addLineDecoration v =>
    simp only [effectRange, Option.some.injEq, Prod.mk.injEq] at hr
    obtain ⟨h1, h2⟩ := hr
    subst h1; subst h2
    rfl
  | removeLineDecoration v =>
    simp only [effectRange, Option.some.injEq, Prod.mk.injEq] at hr
    obtain ⟨h1, h2⟩ := hr
    subst h1; subst h2
    rfl
  | addMarkDecoration v =>
    simp only [effectRange, Option.some.injEq, Prod.mk.injEq] at hr
    obtain ⟨h1, h2⟩ := hr
    subst h1; subst h2
    rfl
  | removeMarkDecoration v =>
    simp only [effectRange, Option.some.injEq, Prod.mk.injEq] at hr
    obtain ⟨h1, h2⟩ := hr
    subst h1; subst h2
    rfl
  | addLineWidget v =>
    simp only [effectRange, Option.some.injEq, Prod.mk.injEq] at hr
    obtain ⟨h1, h2⟩ := hr
    subst h1; subst h2
    rfl
  | removeLineWidget element => simp [effectHasMapConfig] at hmap
  | refreshOverlays => simp [effectHasMapConfig] at hmap

/-- Claim C4, witness: the amended theorem applied to a concrete
order-inverting change description and a concrete add-line-decoration
effect. -/
theorem c4_witness :
    (effectRange (mapEffect (fun pos => 5 - pos) (Effect.addLineDecoration ⟨1, 3, "x", none⟩))
        = some (min ((fun pos => 5 - pos) 1) ((fun pos => 5 - pos) 3),
                max ((fun pos => 5 - pos) 1) ((fun pos => 5 - pos) 3)))
    ∧ min ((fun pos => 5 - pos) 1) ((fun pos => 5 - pos) 3)
        ≤ max ((fun pos => 5 - pos) 1) ((fun pos => 5 - pos) 3)
    ∧ (∀ (change2 : Nat → Nat) (element : Nat),
        mapEffect change2 (Effect.removeLineWidget element) = Effect.removeLineWidget element) :=
  c4_amended (fun pos => 5 - pos) (Effect.addLineDecoration ⟨1, 3, "x", none⟩) 1 3 rfl rfl

/-- Claim C5, counterexample: markText(0, 3, {className: 'c'}) over the
document "abc" does insert the identity-carrying mark spanning the whole
first line into the canonical set, yet the line query over the intersecting
line 0 reflects nothing, because class names are read from the spec.class
key that no decoration of this module ever carries. -/
theorem c5_counterexample :
    (markText ["abc"] decoratorInit 0 3 ⟨"c"⟩).1.effectDecorations
        = [⟨0, 3, mkMarkDecoration "c" (some 0)⟩]
    ∧ getLineClasses ["abc"] (markText ["abc"] decoratorInit 0 3 ⟨"c"⟩).1 0 = [] :=
  ⟨rfl, rfl⟩

/-- Claim C5, amended: markText(from, to, {className: c}) inserts an
identity-bearing mark decoration with class c over the requested range into
the canonical set; no getLineClasses query ever reflects any decoration on
any state satisfying the spec.class-unset invariant, which every dispatch
preserves (the invariant holds of every reachable state since the module
never writes spec.class); and clear() on the returned handle removes every
decoration carrying the handle identity from the canonical set. -/
theorem c5_amended :
    (∀ (doc : List String) (s : DecoratorState) (f t : Nat) (o : MarkTextOptions),
        (markText doc s f t o).1.effectDecorations
          = rangeSetInsert ⟨f, t, mkMarkDecoration o.className (some s.nextLineWidgetId)⟩
              s.effectDecorations)
    ∧ (∀ (doc : List String) (s : DecoratorState) (n : Nat),
        s.effectDecorations.all (fun d => d.value.spec.specClass == none) = true →
          getLineClasses doc s n = [])
    ∧ (∀ (doc : List String) (s : DecoratorState) (effects : List Effect),
        stateSpecClassUnset s = true → stateSpecClassUnset (dispatch doc s effects) = true)
    ∧ (∀ (doc : List String) (s : DecoratorState) (spec : CssDecorationSpec) (n : Nat),
        spec.id = some n →
          ((markTextClear doc s spec).effectDecorations.all
            (fun d => !(d.value.spec.id == some n))) = true) := by
  refine ⟨fun doc s f t o => rfl, getLineClasses_specClassUnset, ?_, markTextClear_removes_id⟩
  intro doc s effects h
  simp only [stateSpecClassUnset, dispatch] at h ⊢
  exact updateEffectDecorations_specClassUnset _ _ h

/-- Claim C5, witness: the amended theorem applied at concrete inputs, with
every hypothesis evaluated. -/
theorem c5_witness :
    (markText ["abc"] decoratorInit 0 3 ⟨"c"⟩).1.effectDecorations
        = rangeSetInsert ⟨0, 3, mkMarkDecoration "c" (some decoratorInit.nextLineWidgetId)⟩
            decoratorInit.effectDecorations
    ∧ getLineClasses ["abc"] decoratorInit 0 = []
    ∧ stateSpecClassUnset (dispatch ["abc"] decoratorInit [Effect.refreshOverlays]) = true
    ∧ ((markTextClear ["abc"] decoratorInit ⟨0, 3, "c", some 0⟩).effectDecorations.all
        (fun d => !(d.value.spec.id == some 0))) = true :=
  ⟨c5_amended.1 ["abc"] decoratorInit 0 3 ⟨"c"⟩,
   c5_amended.2.1 ["abc"] decoratorInit 0 (by decide),
   c5_amended.2.2.1 ["abc"] decoratorInit [Effect.refreshOverlays] (by decide),
   c5_amended.2.2.2 ["abc"] decoratorInit ⟨0, 3, "c", some 0⟩ 0 (by decide)⟩

/-- Claim C6: an overlay whose token function returns without advancing the
cursor makes the whole overlay recompute fail with the advance error, which
propagates to the caller of createOverlayDecorations; no decoration set is
produced for the cycle. -/
theorem c6_token_no_advance {σ : Type} [Inhabited σ] (o : ModelOverlay σ)
    (rest : List (ModelOverlay σ)) (doc : List String) (f t tabSize indentSize : Nat)
    (cache : List (String × DecorationM))
    (hadv : ∀ (r : StreamState) (s : σ), (o.token r s).1.pos = r.pos)
    (hne : (docLine doc (docLineAt doc f).number).text.length ≠ 0)
    (hle : (docLineAt doc f).number ≤ (docLineAt doc t).number) :
    createOverlayDecorations (o :: rest) doc [(f, t)] tabSize indentSize cache
      = Except.error overlayAdvanceError := by
  have hcount : (docLineAt doc t).number + 1 - (docLineAt doc f).number
      = ((docLineAt doc t).number - (docLineAt doc f).number) + 1 := by omega
  have hreader : streamEol
      (⟨(docLine doc (docLineAt doc f).number).text, 0, tabSize, indentSize⟩ : StreamState)
        = false := by
    simp only [streamEol, decide_eq_false_iff_not]
    omega
  have hscan : ∀ (st : σ),
      scanLine o ⟨(docLine doc (docLineAt doc f).number).text, 0, tabSize, indentSize⟩ st 0
        (docLine doc (docLineAt doc f).number).lfrom ([], cache)
        ((docLine doc (docLineAt doc f).number).text.length + 1)
        = Except.error overlayAdvanceError := by
    intro st
    exact scanLine_no_advance o _ st 0 _ _ _ (by omega) hreader (hadv _ _)
  have hrange : ∀ (st : σ),
      scanRangeLines o doc tabSize indentSize (docLineAt doc f).number
        ((docLineAt doc t).number + 1 - (docLineAt doc f).number) st ([], cache)
        = Except.error overlayAdvanceError := by
    intro st
    rw [hcount]
    simp only [scanRangeLines]
    rw [hscan st]
  simp only [createOverlayDecorations, scanOverlays, scanRanges]
  rw [hrange _]

/-- Claim C6, witness: the theorem applied to a concrete never-advancing
overlay over a one-line document. -/
theorem c6_witness :
    createOverlayDecorations [stuckOverlay] ["a"] [(0, 0)] 4 2 []
      = Except.error overlayAdvanceError :=
  c6_token_no_advance stuckOverlay [] ["a"] 0 0 4 2 []
    (fun r s => rfl) (by decide) (by decide)

/-- Claim C7: the overlay returning line-error on each line's first character
over the fully visible three-line document "abc\ndef\nghi" yields exactly
three size-zero line decorations with class cm-line-error, one at each line
start offset 0, 4 and 8, in ascending order; and the sort applied to the
accumulated list before bulk construction always produces a (from, to)
ascending list. -/
theorem c7_overlay_scenario :
    (createOverlayDecorations [overlayC7] ["abc", "def", "ghi"] [(0, 11)] 4 2 []
      = Except.ok ([⟨0, 0, mkLineDecoration "cm-line-error" none⟩,
                    ⟨4, 4, mkLineDecoration "cm-line-error" none⟩,
                    ⟨8, 8, mkLineDecoration "cm-line-error" none⟩],
                   [("cm-line-error", mkLineDecoration "cm-line-error" none)]))
    ∧ (∀ (ds : List RDecoration), isSortedDecs (sortDecorations ds) = true) :=
  ⟨rfl, isSortedDecs_sortDecorations⟩

/-- Claim C8, counterexample: after an identity-less request for class hl and
then an identity-bearing request for the same class, a further identity-less
request does not return the decoration the first one produced: the
identity-bearing request overwrote the cache entry, so the cached decoration
now carries the identity. -/
theorem c8_counterexample :
    (classNameToCssDecoration
        (classNameToCssDecoration
          (classNameToCssDecoration [] "hl" true none).2 "hl" true (some 1)).2
        "hl" true none).1
      ≠ (classNameToCssDecoration [] "hl" true none).1 := by
  decide

/-- Claim C8, amended: an identity-less request returns the cached decoration
when the class is cached, leaving the cache unchanged; an identity-bearing
request never reads the cache, produces a decoration carrying the requested
identity and overwrites the cache entry for the class; consequently an
identity-less request immediately following an identity-bearing one for the
same class returns the identity-bearing decoration, not the earlier
identity-less one. -/
theorem c8_amended :
    (∀ (cache : List (String × DecorationM)) (c : String) (l : Bool) (d : DecorationM),
        cacheFind cache c = some d → classNameToCssDecoration cache c l none = (d, cache))
    ∧ (∀ (cache : List (String × DecorationM)) (c : String) (l : Bool) (n : Nat),
        (classNameToCssDecoration cache c l (some n)).1.spec.id = some n
        ∧ cacheFind (classNameToCssDecoration cache c l (some n)).2 c
            = some (classNameToCssDecoration cache c l (some n)).1)
    ∧ (∀ (cache : List (String × DecorationM)) (c : String) (l l2 : Bool) (n : Nat),
        (classNameToCssDecoration
            (classNameToCssDecoration cache c l (some n)).2 c l2 none).1
          = (classNameToCssDecoration cache c l (some n)).1) := by
  refine ⟨fun cache c l d h => cn_none_some_eq cache c l d h, ?_, ?_⟩
  · intro cache c l n
    constructor
    · rw [cn_some_eq]
      cases l <;> rfl
    · rw [cn_some_eq]
      exact cacheFind_cacheSet cache c _
  · intro cache c l l2 n
    rw [cn_some_eq]
    rw [cn_none_some_eq _ c l2 _ (cacheFind_cacheSet cache c _)]

/-- Claim C8, witness: the amended theorem applied at a concrete cache
containing the class. -/
theorem c8_witness :
    classNameToCssDecoration [("x", mkLineDecoration "x" none)] "x" true none
      = (mkLineDecoration "x" none, [("x", mkLineDecoration "x" none)]) :=
  c8_amended.1 [("x", mkLineDecoration "x" none)] "x" true (mkLineDecoration "x" none) (by decide)

/-- Claim C9: dispatching the same remove-mark effect (as a markText handle
clear does) or the same remove-line-widget effect (as a widget handle clear
does) a second time leaves the canonical decoration set exactly as the first
dispatch left it: the second filter matches nothing new.  No error is raised;
the operations are total. -/
theorem c9_clear_twice (doc : List String) (s : DecoratorState) (spec : CssDecorationSpec)
    (element : Nat) :
    ((dispatch doc (dispatch doc s [Effect.removeMarkDecoration spec])
        [Effect.removeMarkDecoration spec]).effectDecorations
      = (dispatch doc s [Effect.removeMarkDecoration spec]).effectDecorations)
    ∧ ((dispatch doc (dispatch doc s [Effect.removeLineWidget element])
        [Effect.removeLineWidget element]).effectDecorations
      = (dispatch doc s [Effect.removeLineWidget element]).effectDecorations) := by
  constructor
  · simp only [dispatch, updateEffectDecorations, applyTransaction, List.foldl, applyEffect,
      applyRemoveCss]
    rw [classNameToCssDecoration_none_stable]
    exact filter_idem _ _
  · simp only [dispatch, updateEffectDecorations, applyTransaction, List.foldl, applyEffect]
    exact filter_idem _ _

/-- Claim C10: a remove-line-widget effect keeps a decoration exactly when
the decoration is not a widget decoration wrapping the very element carried
by the effect; every line decoration, every mark decoration, and every widget
decoration wrapping a different element survives unchanged. -/
theorem c10_remove_widget_frame (doc : List String) (s : DecoratorState) (element : Nat)
    (d : RDecoration) :
    d ∈ (dispatch doc s [Effect.removeLineWidget element]).effectDecorations
      ↔ d ∈ s.effectDecorations ∧ ¬ specWidgetElement d.value = some element := by
  simp only [dispatch, updateEffectDecorations, applyTransaction, List.foldl, applyEffect]
  rw [List.mem_filter]
  simp
